import Mathlib

/-!
Verification of the looper engine (script.js, recorder-processor.js).

Shallow embedding conventions:
* PCM sample values and audio-clock times are modelled as rationals (the code
  uses IEEE doubles / Float32; none of the verified claims depend on rounding,
  and NaN never arises over the rationals).
* A Web Audio `AudioBuffer` is a sample-rate plus a list of channels, each a
  list of samples; `buf.length` is the length of channel 0, as in Web Audio
  where all channels share one length (the `wf` predicate).
* JavaScript's `%` on numbers (truncated fmod) is `jsMod`; `Math.round` is
  `jsRound` (half-up, ties toward positive infinity).
* DOM / WebAudio node plumbing (gain nodes, `sourceNode.start`, UI rings) is
  outside the model except where a claim observes it: the presence of a
  track's `sourceNode` is the Boolean `sourceActive`, since
  `Looper.startPlayback` branches on `loopers[1].sourceNode`.
-/

/-- JavaScript `a % b` on numbers: truncated remainder, `a - b * trunc(a/b)`.
For `b = 0` the code would produce NaN; every use in the source guards
`b ≠ 0`, and we only instantiate it with `b ≠ 0`. -/
def jsMod (a b : ℚ) : ℚ :=
  let q := a / b
  a - b * (if 0 ≤ q then (⌊q⌋ : ℚ) else (⌈q⌉ : ℚ))

/-- JavaScript `Math.round`: half-up, ties toward +∞. -/
def jsRound (x : ℚ) : ℤ := ⌊x + 1/2⌋

/-- Configuration constants from the `GLOBALS` object in script.js. -/
def GLOBALS_PITCH_GRAIN_SIZE : ℕ := 2048

def GLOBALS_PITCH_HOP_RATIO : ℚ := 25 / 100

def GLOBALS_UNDO_STACK_LIMIT : ℕ := 6

def GLOBALS_RECORDER_GLOBAL_TIMEOUT_MS : ℤ := 120000

/-- Module-scope flag `ALLOW_WRAP_OVERDUB` (script.js line 61), default off. -/
def ALLOW_WRAP_OVERDUB : Bool := false

/-- A Web Audio `AudioBuffer`: per-channel PCM data at a sample rate. -/
structure AudioBuffer where
  sampleRate : ℚ
  channels : List (List ℚ)
  deriving DecidableEq, Repr

/-- Model of `buf.numberOfChannels`. -/
def AudioBuffer.numberOfChannels (b : AudioBuffer) : ℕ := b.channels.length

/-- Model of `buf.length` (frames per channel; channel 0 is the representative, since
Web Audio buffers have one shared length). -/
def AudioBuffer.length (b : AudioBuffer) : ℕ := (b.channels.headD []).length

/-- Model of `buf.duration = length / sampleRate`. -/
def AudioBuffer.duration (b : AudioBuffer) : ℚ := (b.length : ℚ) / b.sampleRate

/-- Model of `buf.getChannelData(ch)`. -/
def AudioBuffer.getChannelData (b : AudioBuffer) (ch : ℕ) : List ℚ :=
  b.channels.getD ch []

/-- Well-formedness: all channels have the buffer's length (a Web Audio
invariant of every real `AudioBuffer`). -/
def AudioBuffer.wf (b : AudioBuffer) : Prop :=
  ∀ c ∈ b.channels, c.length = b.length

instance (b : AudioBuffer) : Decidable b.wf := by
  unfold AudioBuffer.wf; infer_instance

/-- The hard limiter in `finishOverdub`:
`if (outD[i] > 1) outD[i] = 1; if (outD[i] < -1) outD[i] = -1;`. -/
def clampSample (x : ℚ) : ℚ :=
  if x > 1 then 1 else if x < -1 then -1 else x

/-- Fitting one decoded overdub channel to the loop length, from
`finishOverdub` (script.js lines 1393-1403): index `i < baseLen` reads
`newBufData[i]` when in range, else 0 (or wraps when `ALLOW_WRAP_OVERDUB`). -/
def fitOverdubChannel (baseLen : ℕ) (newBufData : List ℚ) : List ℚ :=
  (List.range baseLen).map (fun i =>
    if ALLOW_WRAP_OVERDUB then newBufData.getD (i % newBufData.length) 0
    else if i < newBufData.length then newBufData.getD i 0 else 0)

/-- The overdub mix in `Looper.finishOverdub` (script.js lines 1388-1418),
after the decoded overdub has been resampled to the loop's rate: fit the
overdub to `baseLen`, then sum channel-wise over `max(oC, nC)` channels with
missing channels contributing 0, hard-limited to `[-1, 1]`.  The result
buffer is created with `baseLen` frames at the loop buffer's sample rate. -/
def mixOverdub (loopBuffer newBuf : AudioBuffer) : AudioBuffer :=
  let oC := loopBuffer.numberOfChannels
  let nC := newBuf.numberOfChannels
  let outC := max oC nC
  let baseLen := loopBuffer.length
  let overdubBuffer : List (List ℚ) :=
    (List.range nC).map (fun ch => fitOverdubChannel baseLen (newBuf.getChannelData ch))
  { sampleRate := loopBuffer.sampleRate
    channels := (List.range outC).map (fun ch =>
      (List.range baseLen).map (fun i =>
        let ov : ℚ := if ch < oC then (loopBuffer.getChannelData ch).getD i 0 else 0
        let nv : ℚ := if ch < nC then (overdubBuffer.getD ch []).getD i 0 else 0
        clampSample (ov + nv))) }

theorem rangeMap_getD {α : Type} (f : ℕ → α) (d : α) {i n : ℕ} (h : i < n) :
    ((List.range n).map f).getD i d = f i := by
  rw [List.getD_eq_getElem _ _ (by simpa using h)]
  simp

theorem rangeMap_headD {α : Type} (f : ℕ → α) (d : α) {n : ℕ} (h : 0 < n) :
    ((List.range n).map f).headD d = f 0 := by
  cases n with
  | zero => omega
  | succ m => simp [List.range_succ_eq_map]

theorem getChannelData_mem (b : AudioBuffer) {ch : ℕ} (h : ch < b.numberOfChannels) :
    b.getChannelData ch ∈ b.channels := by
  rw [AudioBuffer.getChannelData, List.getD_eq_getElem _ _ h]
  exact List.getElem_mem h

/-- C2: the overdub mix keeps the loop length (and hence `loop_duration`),
takes `max` of the channel counts, fits the overdub with zero-fill past its
end (`ALLOW_WRAP_OVERDUB` off), and hard-limits every summed sample to
`[-1, 1]`, missing source channels contributing 0. -/
theorem overdub_mix_spec (L O : AudioBuffer) (hL : L.wf) (hO : O.wf)
    (hC : 0 < L.numberOfChannels) :
    (mixOverdub L O).length = L.length ∧
    (mixOverdub L O).duration = L.duration ∧
    (mixOverdub L O).numberOfChannels = max L.numberOfChannels O.numberOfChannels ∧
    ∀ ch < max L.numberOfChannels O.numberOfChannels, ∀ i < L.length,
      ((mixOverdub L O).getChannelData ch).getD i 0 =
        clampSample
          ((if ch < L.numberOfChannels then (L.getChannelData ch).getD i 0 else 0) +
           (if ch < O.numberOfChannels ∧ i < O.length
            then (O.getChannelData ch).getD i 0 else 0)) := by
  have houtC : 0 < max L.numberOfChannels O.numberOfChannels :=
    lt_of_lt_of_le hC (le_max_left _ _)
  have hch : (mixOverdub L O).channels =
      (List.range (max L.numberOfChannels O.numberOfChannels)).map (fun ch =>
        (List.range L.length).map (fun i =>
          clampSample
            ((if ch < L.numberOfChannels then (L.getChannelData ch).getD i 0 else 0) +
             (if ch < O.numberOfChannels
              then (((List.range O.numberOfChannels).map
                      (fun c => fitOverdubChannel L.length (O.getChannelData c))).getD ch []).getD i 0
              else 0)))) := rfl
  have hsr : (mixOverdub L O).sampleRate = L.sampleRate := rfl
  have hlen : (mixOverdub L O).length = L.length := by
    rw [AudioBuffer.length, hch, rangeMap_headD _ _ houtC]
    simp
  refine ⟨hlen, ?_, ?_, ?_⟩
  · rw [AudioBuffer.duration, AudioBuffer.duration, hlen, hsr]
  · rw [AudioBuffer.numberOfChannels, hch]; simp
  · intro ch hchlt i hi
    rw [AudioBuffer.getChannelData, hch, rangeMap_getD _ _ hchlt, rangeMap_getD _ _ hi]
    congr 1
    congr 1
    by_cases hn : ch < O.numberOfChannels
    · rw [if_pos hn, rangeMap_getD _ _ hn, fitOverdubChannel]
      rw [rangeMap_getD _ _ hi]
      have hlenO : (O.getChannelData ch).length = O.length := hO _ (getChannelData_mem O hn)
      simp only [ALLOW_WRAP_OVERDUB, Bool.false_eq_true, if_false, hlenO]
      by_cases hio : i < O.length
      · rw [if_pos hio, if_pos ⟨hn, hio⟩]
      · rw [if_neg hio, if_neg (by tauto)]
    · rw [if_neg hn, if_neg (by tauto)]

/-- Witness for `overdub_mix_spec`: a concrete mono 2-frame loop mixed with a
concrete stereo overdub. -/
theorem overdub_mix_spec_witness :
    (AudioBuffer.mk 1 [[1/2, 3/4]]).wf ∧ (AudioBuffer.mk 1 [[1/2, 1/2], [2, 0]]).wf ∧
    0 < (AudioBuffer.mk 1 [[1/2, 3/4]]).numberOfChannels ∧
    ((mixOverdub (AudioBuffer.mk 1 [[1/2, 3/4]]) (AudioBuffer.mk 1 [[1/2, 1/2], [2, 0]])).length
        = (AudioBuffer.mk 1 [[1/2, 3/4]]).length ∧
     (mixOverdub (AudioBuffer.mk 1 [[1/2, 3/4]]) (AudioBuffer.mk 1 [[1/2, 1/2], [2, 0]])).duration
        = (AudioBuffer.mk 1 [[1/2, 3/4]]).duration ∧
     (mixOverdub (AudioBuffer.mk 1 [[1/2, 3/4]]) (AudioBuffer.mk 1 [[1/2, 1/2], [2, 0]])).numberOfChannels
        = max (AudioBuffer.mk 1 [[1/2, 3/4]]).numberOfChannels
            (AudioBuffer.mk 1 [[1/2, 1/2], [2, 0]]).numberOfChannels ∧
     ∀ ch < max (AudioBuffer.mk 1 [[1/2, 3/4]]).numberOfChannels
            (AudioBuffer.mk 1 [[1/2, 1/2], [2, 0]]).numberOfChannels,
       ∀ i < (AudioBuffer.mk 1 [[1/2, 3/4]]).length,
        ((mixOverdub (AudioBuffer.mk 1 [[1/2, 3/4]]) (AudioBuffer.mk 1 [[1/2, 1/2], [2, 0]])).getChannelData ch).getD i 0 =
          clampSample
            ((if ch < (AudioBuffer.mk 1 [[1/2, 3/4]]).numberOfChannels
              then ((AudioBuffer.mk 1 [[1/2, 3/4]]).getChannelData ch).getD i 0 else 0) +
             (if ch < (AudioBuffer.mk 1 [[1/2, 1/2], [2, 0]]).numberOfChannels ∧
                 i < (AudioBuffer.mk 1 [[1/2, 1/2], [2, 0]]).length
              then ((AudioBuffer.mk 1 [[1/2, 1/2], [2, 0]]).getChannelData ch).getD i 0 else 0))) :=
  ⟨by decide, by decide, by decide,
   overdub_mix_spec (AudioBuffer.mk 1 [[1/2, 3/4]]) (AudioBuffer.mk 1 [[1/2, 1/2], [2, 0]])
     (by decide) (by decide) (by decide)⟩

/-- Result of `scheduleAtNextBar`: `startAt` in audio-clock seconds and
`waitMs` in rounded milliseconds, as the source returns them. -/
structure BarSchedule where
  startAt : ℚ
  waitMs : ℤ
  deriving DecidableEq, Repr

/-- Model of `scheduleAtNextBar(masterDuration, divider)` (script.js lines 244-253).
`now` is `audioCtx.currentTime`; `masterPresent` is `loopers[1]` being
non-null; the guard `!master.loopStartTime || !masterDuration` is JavaScript
number-falsiness, i.e. the value being 0 (a null `masterDuration` is also
modelled as 0). -/
def scheduleAtNextBar (now : ℚ) (masterPresent : Bool) (masterLoopStartTime : ℚ)
    (masterDuration : ℚ) (divider : ℚ) : BarSchedule :=
  if masterPresent = false ∨ masterLoopStartTime = 0 ∨ masterDuration = 0 then
    ⟨now, 0⟩
  else
    let masterElapsed := jsMod (now - masterLoopStartTime) masterDuration
    let toNext0 := masterDuration - masterElapsed
    let toNext := if toNext0 < 1 / 1000000 then 0 else toNext0
    let startAt := now + toNext * divider
    ⟨startAt, jsRound (max 0 ((startAt - now) * 1000))⟩

/-- The bar scheduler as claim C5 words it (refinement comparison only):
an *elapsed* offset below ε is treated as 0, and the wait is
`max(0, start_at − t)` in seconds.  Written from the claim's text, with the
claim's unspecified ε instantiated at the code's 1e-6. -/
def scheduleAtNextBarClaimed (now : ℚ) (masterPresent : Bool) (masterLoopStartTime : ℚ)
    (masterDuration : ℚ) (divider : ℚ) : ℚ × ℚ :=
  if masterPresent = false then (now, 0)
  else
    let e0 := jsMod (now - masterLoopStartTime) masterDuration
    let e := if e0 < 1 / 1000000 then 0 else e0
    let startAt := now + (masterDuration - e) * divider
    (startAt, max 0 (startAt - now))

theorem jsRound_nonneg {x : ℚ} (h : 0 ≤ x) : 0 ≤ jsRound x := by
  rw [jsRound]
  exact Int.le_floor.2 (by push_cast; linarith)

/-- C5 counterexample: with master loop start 1, duration 2 and the current
time 1e-7 past a bar boundary, the code returns `start_at = t + (D − e)`
(= 5 exactly), while the claim's rule "elapsed offset below ε treated as 0"
demands `start_at = t + D` (= 5 + 1e-7). -/
theorem schedule_next_bar_claim_counterexample :
    (scheduleAtNextBar (30000001/10000000) true 1 2 1).startAt ≠
      (scheduleAtNextBarClaimed (30000001/10000000) true 1 2 1).1 := by
  have harg : (30000001:ℚ)/10000000 - 1 = 20000001/10000000 := by norm_num
  have hq : ((20000001:ℚ)/10000000) / 2 = 20000001/20000000 := by norm_num
  have hf : (⌊(20000001:ℚ)/20000000⌋) = 1 := by
    rw [Int.floor_eq_iff]
    norm_num
  have hm : jsMod ((20000001:ℚ)/10000000) 2 = 1/10000000 := by
    simp only [jsMod, hq]
    rw [if_pos (by norm_num), hf]
    norm_num
  simp only [scheduleAtNextBar, scheduleAtNextBarClaimed, harg, hm]
  norm_num

/-- C5 (amended): `start_at = t + (D − e)·divider` with `e = (t − t0) mod D`,
except that a *remaining time-to-bar* `D − e` below 1e-6 is treated as 0 (so
`start_at = t`); the returned wait is `round(1000·max(0, start_at − t))`
milliseconds and is never negative; with no master set (or a zero master
loop-start-time or duration) the result is `(t, 0)`. -/
theorem schedule_next_bar_spec (now t0 D d : ℚ) (mp : Bool) :
    0 ≤ (scheduleAtNextBar now mp t0 D d).waitMs ∧
    (mp = false ∨ t0 = 0 ∨ D = 0 → scheduleAtNextBar now mp t0 D d = ⟨now, 0⟩) ∧
    (mp = true → t0 ≠ 0 → D ≠ 0 →
      (scheduleAtNextBar now mp t0 D d).startAt =
        (if D - jsMod (now - t0) D < 1 / 1000000 then now
         else now + (D - jsMod (now - t0) D) * d) ∧
      (scheduleAtNextBar now mp t0 D d).waitMs =
        jsRound (max 0 (((scheduleAtNextBar now mp t0 D d).startAt - now) * 1000))) := by
  by_cases hg : mp = false ∨ t0 = 0 ∨ D = 0
  · rw [scheduleAtNextBar, if_pos hg]
    refine ⟨le_refl 0, fun _ => rfl, ?_⟩
    intro h1 h2 h3
    rcases hg with h | h | h
    · rw [h1] at h; exact absurd h (by simp)
    · exact absurd h h2
    · exact absurd h h3
  · rw [scheduleAtNextBar, if_neg hg]
    push_neg at hg
    refine ⟨jsRound_nonneg (le_max_left _ _), fun h => absurd h (by tauto), ?_⟩
    intro _ _ _
    constructor
    · by_cases ht : D - jsMod (now - t0) D < 1 / 1000000
      · simp only [if_pos ht]; ring
      · simp only [if_neg ht]
    · rfl

/-- Witness for `schedule_next_bar_spec` at `t = 5, t0 = 1, D = 2, d = 3`. -/
theorem schedule_next_bar_spec_witness :
    0 ≤ (scheduleAtNextBar 5 true 1 2 3).waitMs ∧
    (scheduleAtNextBar 5 true 1 2 3).startAt =
      (if (2 : ℚ) - jsMod (5 - 1) 2 < 1 / 1000000 then (5 : ℚ)
       else 5 + (2 - jsMod (5 - 1) 2) * 3) :=
  ⟨(schedule_next_bar_spec 5 1 2 3 true).1,
   ((schedule_next_bar_spec 5 1 2 3 true).2.2 rfl (by norm_num) (by norm_num)).1⟩

/-- Grain-size and hop selection in `applyPitchAfterFxToLoop`
(script.js lines 959-963). -/
def applyPitchGrain (bufLen : ℕ) (semitones : ℚ) : ℕ :=
  let grain := GLOBALS_PITCH_GRAIN_SIZE
  let grain := if bufLen < 22050 then 1024 else grain
  if 8 < |semitones| then min 4096 (grain * 2) else grain

/-- Model of `const hop = Math.max(1, Math.floor(grain * GLOBALS.PITCH_HOP_RATIO))`. -/
def applyPitchHop (grain : ℕ) : ℕ :=
  max 1 (⌊(grain : ℚ) * GLOBALS_PITCH_HOP_RATIO⌋).toNat

/-- C6 counterexample: a short buffer (1000 < 22050 samples) with a large
shift (|+12| > 8) gets grain `min(4096, 1024·2) = 2048`, not the 4096 the
claim asserts for `|s| > 8`. -/
theorem pitch_grain_claim_counterexample :
    applyPitchGrain 1000 12 = 2048 ∧ applyPitchGrain 1000 12 ≠ 4096 := by
  constructor <;> decide

/-- C6 (amended): grain is 2048 by default, 1024 for buffers shorter than
22050 samples, and is doubled with a 4096 cap when `|s| > 8` — hence 4096
only when additionally `bufLen ≥ 22050`, and 2048 when both conditions hold;
the hop is `⌊grain × 0.25⌋ = grain / 4` (the `max(1, ·)` guard never
fires at these sizes). -/
theorem pitch_grain_selection (bufLen : ℕ) (s : ℚ) :
    applyPitchGrain bufLen s =
      (if 8 < |s| then (if bufLen < 22050 then 2048 else 4096)
       else (if bufLen < 22050 then 1024 else 2048)) ∧
    applyPitchHop (applyPitchGrain bufLen s) = applyPitchGrain bufLen s / 4 := by
  by_cases hs : 8 < |s| <;> by_cases hb : bufLen < 22050 <;>
    simp only [applyPitchGrain, applyPitchHop, GLOBALS_PITCH_GRAIN_SIZE,
      GLOBALS_PITCH_HOP_RATIO, hs, hb, if_pos, if_neg, if_true, if_false] <;>
    norm_num <;> rfl

/-- The process-wide Recording Lease: `_globalRecordingLock` and
`_globalRecordingLockTimestamp` (script.js lines 146-147). -/
structure RecLock where
  locked : Bool
  timestampMs : ℤ
  deriving DecidableEq, Repr

/-- Model of `tryClaimRecLock()` (script.js lines 148-157) with `Date.now()` passed in
as `nowMs`: a held lock older than `RECORDER_GLOBAL_TIMEOUT_MS + 3000` is
force-released and reclaimed; otherwise a held lock makes the claim fail
without touching the lock state. -/
def tryClaimRecLock (nowMs : ℤ) (st : RecLock) : RecLock × Bool :=
  if st.locked = true then
    if GLOBALS_RECORDER_GLOBAL_TIMEOUT_MS + 3000 < nowMs - st.timestampMs then
      (⟨true, nowMs⟩, true)
    else (st, false)
  else (⟨true, nowMs⟩, true)

/-- Model of `releaseRecLock()` (script.js lines 158-161). -/
def releaseRecLock : RecLock := ⟨false, 0⟩

/-- C3: of two overlapping capture starts, the first claims the lease and the
second fails without changing the lease state, unless the held lease is past
its hard expiration (123 s > 120 s old), in which case the second may
reclaim it.  `startRecordingWithSafety` turns the failed claim into the
RecorderBusy error (script.js line 178); see `startRecording` below. -/
theorem recording_lease_uniqueness (t1 t2 : ℤ) (st0 : RecLock)
    (h0 : st0.locked = false) :
    (120000 : ℤ) ≤ GLOBALS_RECORDER_GLOBAL_TIMEOUT_MS + 3000 ∧
    (tryClaimRecLock t1 st0).2 = true ∧
    (tryClaimRecLock t1 st0).1 = ⟨true, t1⟩ ∧
    (t2 - t1 ≤ GLOBALS_RECORDER_GLOBAL_TIMEOUT_MS + 3000 →
      tryClaimRecLock t2 (tryClaimRecLock t1 st0).1 = ((tryClaimRecLock t1 st0).1, false)) ∧
    (GLOBALS_RECORDER_GLOBAL_TIMEOUT_MS + 3000 < t2 - t1 →
      (tryClaimRecLock t2 (tryClaimRecLock t1 st0).1).2 = true) := by
  have h1 : tryClaimRecLock t1 st0 = (⟨true, t1⟩, true) := by
    rw [tryClaimRecLock, if_neg (by rw [h0]; simp)]
  refine ⟨by norm_num [GLOBALS_RECORDER_GLOBAL_TIMEOUT_MS], by rw [h1], by rw [h1], ?_, ?_⟩
  · intro hle
    rw [h1, tryClaimRecLock]
    rw [if_pos (show ({ locked := true, timestampMs := t1 } : RecLock).locked = true from rfl)]
    rw [if_neg (show ¬ (GLOBALS_RECORDER_GLOBAL_TIMEOUT_MS + 3000 <
      t2 - ({ locked := true, timestampMs := t1 } : RecLock).timestampMs) from not_lt.2 hle)]
  · intro hlt
    rw [h1, tryClaimRecLock]
    rw [if_pos (show ({ locked := true, timestampMs := t1 } : RecLock).locked = true from rfl)]
    rw [if_pos (show GLOBALS_RECORDER_GLOBAL_TIMEOUT_MS + 3000 <
      t2 - ({ locked := true, timestampMs := t1 } : RecLock).timestampMs from hlt)]

/-- Witness for `recording_lease_uniqueness`: lease free at time 0, second
attempt at 1000 ms. -/
theorem recording_lease_uniqueness_witness :
    (RecLock.mk false 0).locked = false ∧
    ((120000 : ℤ) ≤ GLOBALS_RECORDER_GLOBAL_TIMEOUT_MS + 3000 ∧
     (tryClaimRecLock 0 (RecLock.mk false 0)).2 = true ∧
     (tryClaimRecLock 0 (RecLock.mk false 0)).1 = ⟨true, 0⟩ ∧
     ((1000 : ℤ) - 0 ≤ GLOBALS_RECORDER_GLOBAL_TIMEOUT_MS + 3000 →
       tryClaimRecLock 1000 (tryClaimRecLock 0 (RecLock.mk false 0)).1 =
         ((tryClaimRecLock 0 (RecLock.mk false 0)).1, false)) ∧
     (GLOBALS_RECORDER_GLOBAL_TIMEOUT_MS + 3000 < (1000 : ℤ) - 0 →
       (tryClaimRecLock 1000 (tryClaimRecLock 0 (RecLock.mk false 0)).1).2 = true)) :=
  ⟨rfl, recording_lease_uniqueness 0 1000 (RecLock.mk false 0) rfl⟩

/-- Track states of the Loop Track state machine (`this.state` strings in
script.js). -/
inductive TrackState
  | ready
  | waiting
  | recording
  | playing
  | overdub
  | stopped
  deriving DecidableEq, Repr

/-- An undo snapshot as pushed by `pushUndoSnapshot` (script.js lines
308-317): a deep copy of the loop buffer plus a JSON deep copy of the effect
chain (modelled as an opaque list of parameter values; JSON round-tripping
is the identity on it).  The `timestamp` field is never read back. -/
structure UndoSnapshot where
  buffer : Option AudioBuffer
  fxChain : List ℚ
  deriving DecidableEq, Repr

/-- The per-track mutable state of class `Looper` (script.js lines 1006-1047)
that the verified claims observe.  `sourceActive` models
`this.sourceNode !== null` (playback nodes themselves are outside the
model); media-recorder handles, UI elements and pitch-job handles are
omitted because no claim observes them. -/
structure Looper where
  index : ℕ
  state : TrackState
  loopBuffer : Option AudioBuffer
  loopStartTime : ℚ
  loopDuration : ℚ
  divider : ℚ
  uiDisabled : Bool
  sourceActive : Bool
  undoStack : List UndoSnapshot
  fxChain : List ℚ
  deriving DecidableEq, Repr

/-- Model of `copyAudioBuffer` (script.js lines 329-336): a fresh buffer of the same
shape with every channel's data copied via `slice(0)` + `copyToChannel`. -/
def copyAudioBuffer (src : AudioBuffer) : AudioBuffer :=
  { sampleRate := src.sampleRate
    channels := (List.range src.numberOfChannels).map (fun ch => src.getChannelData ch) }

theorem copyAudioBuffer_eq (src : AudioBuffer) : copyAudioBuffer src = src := by
  rw [copyAudioBuffer]
  cases src with
  | mk sr chans =>
    simp only [AudioBuffer.mk.injEq, true_and]
    apply List.ext_getElem
    · simp [AudioBuffer.numberOfChannels]
    · intro i h1 h2
      simp only [AudioBuffer.numberOfChannels] at *
      rw [List.getElem_map, List.getElem_range]
      rw [AudioBuffer.getChannelData]
      exact List.getD_eq_getElem _ _ (by simpa using h2)

/-- Model of `Looper.startPlayback` (script.js lines 1286-1302), restricted to the
state the claims observe.  For a dependent track with the master set, a
live master `sourceNode` and a positive `masterLoopDuration`, the playback
offset is recomputed from the *master's* loop start time (reset to 0 when
negative or past the buffer's duration); `this.loopStartTime` is then
`now - off`.  The `isNaN` guard cannot fire over the rationals.  All times
in one invocation are a single instant `now`, as in the handler. -/
def Looper.startPlayback (masterLoopStartTime : ℚ) (masterIsSet : Bool)
    (masterSourceActive : Bool) (masterLoopDuration : ℚ) (now : ℚ) (lp : Looper) : Looper :=
  match lp.loopBuffer with
  | none => lp
  | some buf =>
    let off : ℚ :=
      if lp.index ≠ 1 ∧ masterIsSet = true ∧ masterSourceActive = true ∧ 0 < masterLoopDuration
      then
        let o := jsMod (now - masterLoopStartTime) masterLoopDuration
        if o < 0 ∨ buf.duration < o then 0 else o
      else 0
    { lp with loopStartTime := now - off, sourceActive := true,
              state := TrackState.playing }

/-- Model of `Looper.stopPlayback` (script.js line 1309): stops the source node (the
node object itself is *not* nulled) and sets the state to stopped. -/
def Looper.stopPlayback (lp : Looper) : Looper :=
  { lp with state := TrackState.stopped }

/-- One dependent track's branch of the loop body of
`resyncAllTracksFromMaster` (script.js lines 293-303): when the track has a
buffer and is playing or overdubbing, compute its current relative position
(`lp.loopStartTime` and `lp.loopDuration` read with JavaScript `||`
falsiness on 0), stop playback, set `loopStartTime = now - off`, and restart
playback.  `masterLoopStartTime` has already been reset to `now` by the
caller, and `masterSourceActive` is the master's `sourceNode` presence. -/
def resyncDependent (now : ℚ) (masterSourceActive : Bool) (masterLoopDuration : ℚ)
    (lp : Looper) : Looper :=
  match lp.loopBuffer with
  | none => lp
  | some _ =>
    if lp.state = TrackState.playing ∨ lp.state = TrackState.overdub then
      let lst := if lp.loopStartTime = 0 then now else lp.loopStartTime
      let dur := if lp.loopDuration = 0 then masterLoopDuration else lp.loopDuration
      let relPos := jsMod (now - lst) dur
      let lp1 := lp.stopPlayback
      let off := jsMod relPos lp1.loopDuration
      let lp2 := { lp1 with loopStartTime := now - off }
      Looper.startPlayback now true masterSourceActive masterLoopDuration now lp2
    else lp

/-- The transport + four-track global state: `loopers[1..4]`,
`masterLoopDuration`, `masterBPM`, `masterIsSet` (script.js line 53 and the
`loopers` array). -/
structure Session where
  track1 : Looper
  track2 : Looper
  track3 : Looper
  track4 : Looper
  masterLoopDuration : Option ℚ
  masterBPM : Option ℤ
  masterIsSet : Bool
  deriving DecidableEq, Repr

/-- Model of `resyncAllTracksFromMaster()` (script.js lines 288-305): guard on master
set with a buffer, refresh `masterLoopDuration`, reset the master's
`loopStartTime` to the current time, then re-align every dependent track
that is playing or overdubbing. -/
def resyncAllTracksFromMaster (now : ℚ) (s : Session) : Session :=
  if s.masterIsSet = false ∨ s.track1.loopBuffer = none then s
  else
    let master := { s.track1 with loopStartTime := now }
    let mld := master.loopDuration
    { s with
      track1 := master
      masterLoopDuration := some mld
      track2 := resyncDependent now master.sourceActive mld s.track2
      track3 := resyncDependent now master.sourceActive mld s.track3
      track4 := resyncDependent now master.sourceActive mld s.track4 }

/-- A track's relative offset inside its loop at time `now`:
`(now − lp.loopStartTime) mod lp.loopDuration`, the quantity claim C1 says
re-alignment preserves. -/
def relOffset (now : ℚ) (lp : Looper) : ℚ :=
  jsMod (now - lp.loopStartTime) lp.loopDuration

/-- C1 (code bug): dependent Track 2 (loop 2 s, currently 1 s into its loop
at `now = 10`) is re-aligned after the master buffer is replaced (new master
loop 1.5 s).  `resyncAllTracksFromMaster` computes `off = 1` and sets
`loopStartTime = 9`, but the `startPlayback()` it then calls recomputes the
offset from the master's *just reset* loop start time, overwriting
`loopStartTime` with 10: the relative offset after re-alignment is 0, a full
1 s away from the previous offset 1 s, not within the claimed 1 ms. -/
theorem resync_offset_not_preserved :
    relOffset 10 (Looper.mk 2 TrackState.playing (some (AudioBuffer.mk 1 [[0, 0]]))
      9 2 1 false true [] []) = 1 ∧
    relOffset 10
      ((resyncAllTracksFromMaster 10
        (Session.mk
          (Looper.mk 1 TrackState.playing (some (AudioBuffer.mk 2 [[0, 0, 0]]))
            5 (3/2) 1 false true [] [])
          (Looper.mk 2 TrackState.playing (some (AudioBuffer.mk 1 [[0, 0]]))
            9 2 1 false true [] [])
          (Looper.mk 3 TrackState.ready none 0 0 1 false false [] [])
          (Looper.mk 4 TrackState.ready none 0 0 1 false false [] [])
          (some 2) (some 120) true)).track2) = 0 ∧
    ¬ |relOffset 10
        ((resyncAllTracksFromMaster 10
          (Session.mk
            (Looper.mk 1 TrackState.playing (some (AudioBuffer.mk 2 [[0, 0, 0]]))
              5 (3/2) 1 false true [] [])
            (Looper.mk 2 TrackState.playing (some (AudioBuffer.mk 1 [[0, 0]]))
              9 2 1 false true [] [])
            (Looper.mk 3 TrackState.ready none 0 0 1 false false [] [])
            (Looper.mk 4 TrackState.ready none 0 0 1 false false [] [])
            (some 2) (some 120) true)).track2) -
      relOffset 10 (Looper.mk 2 TrackState.playing (some (AudioBuffer.mk 1 [[0, 0]]))
        9 2 1 false true [] [])| < 1/1000 := by
  have hm1 : jsMod (1 : ℚ) 2 = 1 := by
    simp only [jsMod]
    rw [if_pos (by norm_num : (0:ℚ) ≤ 1/2)]
    rw [show (⌊(1:ℚ)/2⌋) = 0 by rw [Int.floor_eq_iff]; norm_num]
    norm_num
  have hm0a : jsMod (0 : ℚ) (3/2) = 0 := by
    simp only [jsMod]
    norm_num
  have hm0b : jsMod (0 : ℚ) 2 = 0 := by
    simp only [jsMod]
    norm_num
  have hpre : relOffset 10 (Looper.mk 2 TrackState.playing
      (some (AudioBuffer.mk 1 [[0, 0]])) 9 2 1 false true [] []) = 1 := by
    simp only [relOffset]
    norm_num [hm1]
  have hres : (resyncAllTracksFromMaster 10
      (Session.mk
        (Looper.mk 1 TrackState.playing (some (AudioBuffer.mk 2 [[0, 0, 0]]))
          5 (3/2) 1 false true [] [])
        (Looper.mk 2 TrackState.playing (some (AudioBuffer.mk 1 [[0, 0]]))
          9 2 1 false true [] [])
        (Looper.mk 3 TrackState.ready none 0 0 1 false false [] [])
        (Looper.mk 4 TrackState.ready none 0 0 1 false false [] [])
        (some 2) (some 120) true)).track2 =
      Looper.mk 2 TrackState.playing (some (AudioBuffer.mk 1 [[0, 0]]))
        10 2 1 false true [] [] := by
    simp only [resyncAllTracksFromMaster, resyncDependent, Looper.stopPlayback,
      Looper.startPlayback]
    norm_num [hm1, hm0a, AudioBuffer.duration, AudioBuffer.length]
    simp
  refine ⟨hpre, ?_, ?_⟩
  · rw [hres]
    simp only [relOffset]
    norm_num [hm0b]
  · rw [hres, hpre]
    simp only [relOffset]
    norm_num [hm0b]

/-- Model of `pushUndoSnapshot(lp)` (script.js lines 308-317): unshift a snapshot
(deep copy of the buffer, JSON deep copy of the fx chain) and trim the stack
to `UNDO_STACK_LIMIT` entries from the front (the `while ... pop()` loop
drops the oldest entries, i.e. keeps the first `K`). -/
def pushUndoSnapshot (lp : Looper) : Looper :=
  let snapshot : UndoSnapshot :=
    { buffer := lp.loopBuffer.map copyAudioBuffer, fxChain := lp.fxChain }
  { lp with undoStack := (snapshot :: lp.undoStack).take GLOBALS_UNDO_STACK_LIMIT }

/-- Model of `undoLast(lp)` (script.js lines 318-326): pop the newest snapshot
(restoring the buffer only when the snapshot holds one), restore the fx
chain, and restart playback when the track is playing. -/
def undoLast (masterLoopStartTime : ℚ) (masterIsSet : Bool) (masterSourceActive : Bool)
    (masterLoopDuration : ℚ) (now : ℚ) (lp : Looper) : Looper × Bool :=
  match lp.undoStack with
  | [] => (lp, false)
  | snap :: rest =>
    let lp1 := { lp with undoStack := rest }
    let lp2 :=
      match snap.buffer with
      | some b => { lp1 with loopBuffer := some b }
      | none => lp1
    let lp3 := { lp2 with fxChain := snap.fxChain }
    (if lp3.state = TrackState.playing then
       Looper.startPlayback masterLoopStartTime masterIsSet masterSourceActive
         masterLoopDuration now lp3
     else lp3, true)

/-- One buffer-mutating operation in the pattern every destructive path of
the source follows (overdub mix, pitch rewrite): `pushUndoSnapshot(this)`
and then replace `this.loopBuffer`. -/
def mutateWithSnapshot (lp : Looper) (newBuf : AudioBuffer) : Looper :=
  { pushUndoSnapshot lp with loopBuffer := some newBuf }

/-- A sequence of consecutive buffer-mutating operations. -/
def applyMutations (lp : Looper) (bufs : List AudioBuffer) : Looper :=
  bufs.foldl mutateWithSnapshot lp

theorem startPlayback_loopBuffer (mst : ℚ) (mset msrc : Bool) (mld now : ℚ) (lp : Looper) :
    (Looper.startPlayback mst mset msrc mld now lp).loopBuffer = lp.loopBuffer := by
  cases h : lp.loopBuffer <;> simp [Looper.startPlayback, h]

theorem undoLast_loopBuffer (mst : ℚ) (mset msrc : Bool) (mld now : ℚ) (lp : Looper)
    (snap : UndoSnapshot) (rest : List UndoSnapshot) (b : AudioBuffer)
    (hstack : lp.undoStack = snap :: rest) (hbuf : snap.buffer = some b) :
    (undoLast mst mset msrc mld now lp).1.loopBuffer = some b := by
  simp only [undoLast, hstack, hbuf]
  split <;> simp [startPlayback_loopBuffer]

theorem applyMutations_loopBuffer (bufs : List AudioBuffer) :
    ∀ (lp : Looper) (b0 : AudioBuffer), lp.loopBuffer = some b0 →
      (applyMutations lp bufs).loopBuffer = some (bufs.getLastD b0) := by
  induction bufs with
  | nil => intro lp b0 h; simpa [applyMutations] using h
  | cons b bs ih =>
    intro lp b0 h
    have : applyMutations lp (b :: bs) = applyMutations (mutateWithSnapshot lp b) bs := by
      rw [applyMutations, applyMutations, List.foldl_cons]
    rw [this, ih (mutateWithSnapshot lp b) b rfl, List.getLastD_cons]

/-- C7: after any nonempty sequence of at most `K = 6` consecutive
buffer-mutating operations (each preceded by its undo-snapshot push), a
single Undo restores exactly the loop buffer that was live before the last
operation — byte for byte, because `copyAudioBuffer` is a deep copy whose
value equals its source (`copyAudioBuffer_eq`). -/
theorem undo_restores_pre_op_buffer (mst : ℚ) (mset msrc : Bool) (mld now : ℚ)
    (lp : Looper) (b0 : AudioBuffer) (bufs : List AudioBuffer)
    (hb : lp.loopBuffer = some b0) (hne : bufs ≠ [])
    (hk : bufs.length ≤ GLOBALS_UNDO_STACK_LIMIT) :
    (undoLast mst mset msrc mld now (applyMutations lp bufs)).1.loopBuffer
        = (applyMutations lp bufs.dropLast).loopBuffer ∧
    (applyMutations lp bufs.dropLast).loopBuffer = some (bufs.dropLast.getLastD b0) := by
  rcases List.eq_nil_or_concat bufs with h | ⟨front, last, h⟩
  · exact absurd h hne
  subst h
  have hfront : (applyMutations lp front).loopBuffer = some (front.getLastD b0) :=
    applyMutations_loopBuffer front lp b0 hb
  have happ : applyMutations lp (front.concat last)
      = mutateWithSnapshot (applyMutations lp front) last := by
    rw [applyMutations, applyMutations, List.concat_eq_append, List.foldl_append,
      List.foldl_cons, List.foldl_nil]
  have hdrop : (front.concat last).dropLast = front := by
    simp [List.concat_eq_append]
  have hstack : (mutateWithSnapshot (applyMutations lp front) last).undoStack =
      UndoSnapshot.mk ((applyMutations lp front).loopBuffer.map copyAudioBuffer)
          ((applyMutations lp front).fxChain) ::
        (applyMutations lp front).undoStack.take 5 := by
    simp only [mutateWithSnapshot, pushUndoSnapshot]
    rfl
  have hbufsnap : (UndoSnapshot.mk ((applyMutations lp front).loopBuffer.map copyAudioBuffer)
      ((applyMutations lp front).fxChain)).buffer = some (front.getLastD b0) := by
    simp only [hfront, Option.map_some', copyAudioBuffer_eq]
  rw [happ, hdrop]
  constructor
  · rw [undoLast_loopBuffer mst mset msrc mld now _ _ _ _ hstack hbufsnap, hfront]
  · exact hfront

/-- Witness for `undo_restores_pre_op_buffer`: one mutation on a track whose
buffer is a concrete 1-sample mono loop. -/
theorem undo_restores_pre_op_buffer_witness :
    (Looper.mk 1 TrackState.stopped (some (AudioBuffer.mk 1 [[1]])) 0 1 1 false false
      [] []).loopBuffer = some (AudioBuffer.mk 1 [[1]]) ∧
    ([AudioBuffer.mk 1 [[2]]] : List AudioBuffer) ≠ [] ∧
    ([AudioBuffer.mk 1 [[2]]] : List AudioBuffer).length ≤ GLOBALS_UNDO_STACK_LIMIT ∧
    ((undoLast 0 false false 0 0 (applyMutations
        (Looper.mk 1 TrackState.stopped (some (AudioBuffer.mk 1 [[1]])) 0 1 1 false false [] [])
        [AudioBuffer.mk 1 [[2]]])).1.loopBuffer
      = (applyMutations
          (Looper.mk 1 TrackState.stopped (some (AudioBuffer.mk 1 [[1]])) 0 1 1 false false [] [])
          ([AudioBuffer.mk 1 [[2]]] : List AudioBuffer).dropLast).loopBuffer ∧
     (applyMutations
        (Looper.mk 1 TrackState.stopped (some (AudioBuffer.mk 1 [[1]])) 0 1 1 false false [] [])
        ([AudioBuffer.mk 1 [[2]]] : List AudioBuffer).dropLast).loopBuffer
      = some (([AudioBuffer.mk 1 [[2]]] : List AudioBuffer).dropLast.getLastD
          (AudioBuffer.mk 1 [[1]]))) :=
  ⟨rfl, by decide, by decide,
   undo_restores_pre_op_buffer 0 false false 0 0
     (Looper.mk 1 TrackState.stopped (some (AudioBuffer.mk 1 [[1]])) 0 1 1 false false [] [])
     (AudioBuffer.mk 1 [[1]]) [AudioBuffer.mk 1 [[2]]] rfl (by decide) (by decide)⟩

/-- The per-track part of `Looper.clearLoop()` (script.js lines 1429-1432):
dispose the playback/effect nodes (`sourceNode = null`), null the buffer,
zero the duration, return to ready, cancel any pitch job.  Note it does
*not* touch `this._undoStack`. -/
def clearTrackLocal (lp : Looper) : Looper :=
  { lp with loopBuffer := none, loopDuration := 0, state := TrackState.ready,
            sourceActive := false }

/-- Model of `Looper.clearLoop()` on Track 1 (script.js lines 1429-1439): clear the
master, reset the transport (`masterLoopDuration = null`, `masterBPM = null`,
`masterIsSet = false`), UI-disable every dependent, and invoke each
dependent's own `clearLoop()`. -/
def clearLoopTrack1 (s : Session) : Session :=
  { s with
    track1 := clearTrackLocal s.track1
    masterLoopDuration := none
    masterBPM := none
    masterIsSet := false
    track2 := clearTrackLocal { s.track2 with uiDisabled := true }
    track3 := clearTrackLocal { s.track3 with uiDisabled := true }
    track4 := clearTrackLocal { s.track4 with uiDisabled := true } }

/-- C8 counterexample: a session whose dependent Track 2 has a non-empty
undo stack still has that stack, untouched, after Track 1 Clear — the claim
says Clear also clears each dependent's undo stack. -/
theorem clear_track1_claim_counterexample :
    ((clearLoopTrack1
      (Session.mk
        (Looper.mk 1 TrackState.playing (some (AudioBuffer.mk 1 [[0]])) 0 1 1 false true [] [])
        (Looper.mk 2 TrackState.playing (some (AudioBuffer.mk 1 [[0]])) 0 1 1 false true
          [UndoSnapshot.mk (some (AudioBuffer.mk 1 [[1]])) []] [])
        (Looper.mk 3 TrackState.ready none 0 0 1 true false [] [])
        (Looper.mk 4 TrackState.ready none 0 0 1 true false [] [])
        (some 1) (some 240) true)).track2).undoStack ≠ [] := by
  decide

/-- C8 (amended): Track 1 Clear clears every dependent track's loop buffer,
duration and state and resets the Transport State, but leaves every track's
undo stack exactly as it was. -/
theorem clear_track1_spec (s : Session) :
    (clearLoopTrack1 s).track1.loopBuffer = none ∧
    (clearLoopTrack1 s).track1.state = TrackState.ready ∧
    (clearLoopTrack1 s).masterIsSet = false ∧
    (clearLoopTrack1 s).masterLoopDuration = none ∧
    (clearLoopTrack1 s).masterBPM = none ∧
    ((clearLoopTrack1 s).track2.loopBuffer = none ∧
     (clearLoopTrack1 s).track2.state = TrackState.ready ∧
     (clearLoopTrack1 s).track2.loopDuration = 0 ∧
     (clearLoopTrack1 s).track2.uiDisabled = true) ∧
    ((clearLoopTrack1 s).track3.loopBuffer = none ∧
     (clearLoopTrack1 s).track3.state = TrackState.ready ∧
     (clearLoopTrack1 s).track3.loopDuration = 0 ∧
     (clearLoopTrack1 s).track3.uiDisabled = true) ∧
    ((clearLoopTrack1 s).track4.loopBuffer = none ∧
     (clearLoopTrack1 s).track4.state = TrackState.ready ∧
     (clearLoopTrack1 s).track4.loopDuration = 0 ∧
     (clearLoopTrack1 s).track4.uiDisabled = true) ∧
    ((clearLoopTrack1 s).track2.undoStack = s.track2.undoStack ∧
     (clearLoopTrack1 s).track3.undoStack = s.track3.undoStack ∧
     (clearLoopTrack1 s).track4.undoStack = s.track4.undoStack) := by
  refine ⟨rfl, rfl, rfl, rfl, rfl, ⟨rfl, rfl, rfl, rfl⟩, ⟨rfl, rfl, rfl, rfl⟩,
    ⟨rfl, rfl, rfl, rfl⟩, rfl, rfl, rfl⟩

/-- The error surface the Recorder paths can show the user, per §7 of the
spec (`InvalidState` is in the spec's error vocabulary; the code never emits
it — `startRecording`'s dependent-track guard is a bare `return`). -/
inductive RecMsg
  | noMsg
  | micUnavailable
  | recorderBusy
  | invalidState
  deriving DecidableEq, Repr

/-- Model of `Looper.startRecording()` (script.js lines 1159-1196), reduced to the
observable track state, lease state, and user-visible error:
line 1161 `if (this.index>=2 && !masterIsSet) return;` rejects silently;
then the state is set to recording; a dead mic shows the mic error and
resets to ready; `startRecordingWithSafety` claims the lease, and its
`rec-lock` throw (showing the RecorderBusy banner) is caught by the
caller's `catch`, which resets the state to ready. -/
def startRecording (masterIsSet : Bool) (micAlive : Bool) (nowMs : ℤ) (lock : RecLock)
    (lp : Looper) : Looper × RecLock × RecMsg :=
  if 2 ≤ lp.index ∧ masterIsSet = false then (lp, lock, RecMsg.noMsg)
  else
    let lp1 := { lp with state := TrackState.recording }
    if micAlive = false then ({ lp1 with state := TrackState.ready }, lock, RecMsg.micUnavailable)
    else
      let claimed := tryClaimRecLock nowMs lock
      if claimed.2 = true then (lp1, claimed.1, RecMsg.noMsg)
      else ({ lp1 with state := TrackState.ready }, claimed.1, RecMsg.recorderBusy)

/-- Model of `Looper.phaseLockedRecord()` (script.js lines 1116-1122): Track 1, or
any track while no master is set, goes straight to `startRecording`; a
dependent track with the master set enters waiting and schedules the
bar-aligned start. -/
def phaseLockedRecord (masterIsSet : Bool) (micAlive : Bool) (nowMs : ℤ) (lock : RecLock)
    (lp : Looper) : Looper × RecLock × RecMsg :=
  if lp.index = 1 ∨ masterIsSet = false then startRecording masterIsSet micAlive nowMs lock lp
  else ({ lp with state := TrackState.waiting }, lock, RecMsg.noMsg)

/-- C9 counterexample: a press on dependent Track 3 with no master set is
rejected *silently* — the result carries `noMsg`, not the `InvalidState`
error the claim asserts. -/
theorem dependent_press_no_invalid_state_error :
    (phaseLockedRecord false true 0 (RecLock.mk false 0)
      (Looper.mk 3 TrackState.ready none 0 0 1 true false [] [])).2.2 = RecMsg.noMsg ∧
    RecMsg.noMsg ≠ RecMsg.invalidState := by
  constructor <;> decide

/-- C9 (amended): with no master set, a press on a dependent track
(index ≥ 2) is rejected silently: the track (state and buffer) is returned
unchanged, the Recording Lease is untouched, and no error is surfaced. -/
theorem dependent_press_rejected (lp : Looper) (micAlive : Bool) (nowMs : ℤ)
    (lock : RecLock) (hdep : 2 ≤ lp.index) :
    phaseLockedRecord false micAlive nowMs lock lp = (lp, lock, RecMsg.noMsg) := by
  have hne1 : lp.index ≠ 1 := by omega
  rw [phaseLockedRecord, if_pos (Or.inr rfl), startRecording,
    if_pos ⟨hdep, rfl⟩]

/-- Witness for `dependent_press_rejected`: Track 3, ready, mic alive,
lease free. -/
theorem dependent_press_rejected_witness :
    2 ≤ (Looper.mk 3 TrackState.ready none 0 0 1 true false [] []).index ∧
    phaseLockedRecord false true 0 (RecLock.mk false 0)
        (Looper.mk 3 TrackState.ready none 0 0 1 true false [] []) =
      (Looper.mk 3 TrackState.ready none 0 0 1 true false [] [],
       RecLock.mk false 0, RecMsg.noMsg) :=
  ⟨by decide,
   dependent_press_rejected (Looper.mk 3 TrackState.ready none 0 0 1 true false [] [])
     true 0 (RecLock.mk false 0) (by decide)⟩

/-- The inner grain-accumulation loop (`for (i = 0; i < grainSize; i++)`)
of the pitch shifter, identical in the worker source (script.js lines
750-760) and in `inlinePitchShift` (lines 921-931): read a windowed input
sample around the read pointer (zero outside the input) and accumulate into
`outData[outPos + i - floor(grainSize/2)]` when that target is in range.
The Hann window values are passed in as `win`, exactly as the code passes
its precomputed `win` array. -/
def grainAccum (win : List ℚ) (grainSize outLen : ℕ) (inData : List ℚ)
    (outPos : ℕ) (readPos : ℚ) (outData : List ℚ) : List ℚ :=
  let rStart : ℤ := ⌊readPos - (grainSize : ℚ) / 2⌋
  (List.range grainSize).foldl (fun od (i : ℕ) =>
    let inIdx : ℤ := rStart + (i : ℤ)
    let s : ℚ := if 0 ≤ inIdx ∧ inIdx < (inData.length : ℤ)
                 then inData.getD inIdx.toNat 0 else 0
    let w : ℚ := win.getD i 0
    let target : ℤ := (outPos : ℤ) + (i : ℤ) - ((grainSize / 2 : ℕ) : ℤ)
    if 0 ≤ target ∧ target < (outLen : ℤ) then
      od.set target.toNat (od.getD target.toNat 0 + s * w)
    else od) outData

/-- The envelope accumulation loop (script.js lines 771-776 in the worker,
937-942 inline): overlap-sum the window at the same hop positions. -/
def envAccum (win : List ℚ) (grainSize outLen : ℕ) (outPos : ℕ)
    (envelope : List ℚ) : List ℚ :=
  (List.range grainSize).foldl (fun env (i : ℕ) =>
    let target : ℤ := (outPos : ℤ) + (i : ℤ) - ((grainSize / 2 : ℕ) : ℤ)
    if 0 ≤ target ∧ target < (outLen : ℤ) then
      env.set target.toNat (env.getD target.toNat 0 + win.getD i 0)
    else env) envelope

/-- The hop positions visited by
`for (outPos = 0; outPos < outLen + hop; outPos += hop)`: the multiples of
`hop` below `outLen + hop`.  The JavaScript loop terminates only because
every call site forces `hop ≥ 1` via `Math.max(1, ...)` (or the literal
default `Math.floor(2048*0.25)`). -/
def hopPositions (outLen hop : ℕ) : List ℕ :=
  (List.range ((outLen + hop + hop - 1) / hop)).map (fun k => k * hop)

/-- One channel of the granular pitch shift, shared verbatim between the
worker algorithm (`_pitchWorkerSrc`, script.js lines 740-781) and the inline
fallback (`inlinePitchShift`, lines 915-947): grain accumulation with the
read pointer advanced by `ratio * hop` per hop (wrapped with `%` once past
`len + grainSize`), then envelope normalization with an `|| 1e-8` floor.
`ratio = 2^(semitones/12)` and the Hann window are irrational reals in the
code and enter the model as parameters.  The worker's progress posts and
cancellation polls do not affect the produced samples. -/
def pitchShiftChannel (ratio : ℚ) (win : List ℚ) (grainSize hop outLen : ℕ)
    (inData : List ℚ) : List ℚ :=
  let accum :=
    (hopPositions outLen hop).foldl (fun (acc : List ℚ × ℚ) outPos =>
      let od := grainAccum win grainSize outLen inData outPos acc.2 acc.1
      let rp0 := acc.2 + ratio * (hop : ℚ)
      let rp := if (inData.length : ℚ) + (grainSize : ℚ) < rp0
                then jsMod rp0 (inData.length : ℚ) else rp0
      (od, rp)) (List.replicate outLen 0, 0)
  let envelope :=
    (hopPositions outLen hop).foldl
      (fun env outPos => envAccum win grainSize outLen outPos env)
      (List.replicate outLen 0)
  (List.range outLen).map (fun i =>
    let env := if envelope.getD i 0 = 0 then 1 / 100000000 else envelope.getD i 0
    accum.1.getD i 0 / env)

/-- Model of `inlinePitchShift` (script.js lines 905-949): every channel is processed
with `outLen = inputBuffer.length`, and the output buffer is created with
the input's channel count, `outLen` frames and the input's sample rate. -/
def inlinePitchShift (ratio : ℚ) (win : List ℚ) (grainSize hop : ℕ)
    (input : AudioBuffer) : AudioBuffer :=
  { sampleRate := input.sampleRate
    channels := input.channels.map (fun chData =>
      pitchShiftChannel ratio win grainSize hop input.length chData) }

/-- The worker path (`_pitchWorkerSrc` lines 740-783 plus the `done` handler
in `submitPitchJobToPool` lines 841-851): the worker runs the same per-
channel algorithm with `outLen = len = inputBuffer.length` and posts `sr`
through unchanged; the handler rebuilds the buffer from the posted channels
with `createBuffer(chBuffers.length, outLen, outSR)`. -/
def workerPitchShift (ratio : ℚ) (win : List ℚ) (grainSize hop : ℕ)
    (input : AudioBuffer) : AudioBuffer :=
  { sampleRate := input.sampleRate
    channels := input.channels.map (fun chData =>
      pitchShiftChannel ratio win grainSize hop input.length chData) }

theorem pitchShiftChannel_length (ratio : ℚ) (win : List ℚ) (grainSize hop outLen : ℕ)
    (inData : List ℚ) :
    (pitchShiftChannel ratio win grainSize hop outLen inData).length = outLen := by
  simp [pitchShiftChannel]

/-- C4: for every input buffer and both pitch paths (worker algorithm and
inline fallback), the output has exactly the input's frame count per
channel, the input's channel count, and the input's sample rate — for every
ratio (hence every semitone offset `s ∈ [−12, 12]`, `ratio = 2^(s/12)`) and
every window.  `hop ≥ 1` is what the call sites guarantee and what makes
the JavaScript hop loop terminate. -/
theorem pitch_engine_shape (ratio : ℚ) (win : List ℚ) (grainSize hop : ℕ)
    (input : AudioBuffer) (hhop : 1 ≤ hop) :
    (inlinePitchShift ratio win grainSize hop input).numberOfChannels
        = input.numberOfChannels ∧
    (inlinePitchShift ratio win grainSize hop input).length = input.length ∧
    (inlinePitchShift ratio win grainSize hop input).sampleRate = input.sampleRate ∧
    (∀ c ∈ (inlinePitchShift ratio win grainSize hop input).channels,
        c.length = input.length) ∧
    workerPitchShift ratio win grainSize hop input
        = inlinePitchShift ratio win grainSize hop input := by
  refine ⟨?_, ?_, rfl, ?_, rfl⟩
  · simp [inlinePitchShift, AudioBuffer.numberOfChannels]
  · cases h : input.channels with
    | nil =>
      simp [inlinePitchShift, AudioBuffer.length, h]
    | cons c cs =>
      simp [inlinePitchShift, AudioBuffer.length, h, pitchShiftChannel_length]
  · intro c hc
    rw [inlinePitchShift] at hc
    simp only [List.mem_map] at hc
    obtain ⟨d, _, rfl⟩ := hc
    exact pitchShiftChannel_length _ _ _ _ _ _

/-- Witness for `pitch_engine_shape`: a 3-frame mono buffer, grain 2,
hop 1, unit ratio, window `[1, 1]`. -/
theorem pitch_engine_shape_witness :
    1 ≤ 1 ∧
    ((inlinePitchShift 1 [1, 1] 2 1 (AudioBuffer.mk 44100 [[1, 0, 1]])).numberOfChannels
        = (AudioBuffer.mk 44100 [[1, 0, 1]]).numberOfChannels ∧
     (inlinePitchShift 1 [1, 1] 2 1 (AudioBuffer.mk 44100 [[1, 0, 1]])).length
        = (AudioBuffer.mk 44100 [[1, 0, 1]]).length ∧
     (inlinePitchShift 1 [1, 1] 2 1 (AudioBuffer.mk 44100 [[1, 0, 1]])).sampleRate
        = (AudioBuffer.mk 44100 [[1, 0, 1]]).sampleRate ∧
     (∀ c ∈ (inlinePitchShift 1 [1, 1] 2 1 (AudioBuffer.mk 44100 [[1, 0, 1]])).channels,
        c.length = (AudioBuffer.mk 44100 [[1, 0, 1]]).length) ∧
     workerPitchShift 1 [1, 1] 2 1 (AudioBuffer.mk 44100 [[1, 0, 1]])
        = inlinePitchShift 1 [1, 1] 2 1 (AudioBuffer.mk 44100 [[1, 0, 1]])) :=
  ⟨le_refl 1,
   pitch_engine_shape 1 [1, 1] 2 1 (AudioBuffer.mk 44100 [[1, 0, 1]]) (le_refl 1)⟩

/-- State of the `RecorderProcessor` AudioWorklet (recorder-processor.js):
collected block copies (`_buffers`, each entry one channel-indexed list of
sample slices), the running absolute sample counter, and the armed window
`[_startSample, _endSample)`. -/
structure RecorderProcessor where
  buffers : List (List (List ℚ))
  sampleCounter : ℕ
  armed : Bool
  startSample : ℕ
  endSample : ℕ
  deriving DecidableEq, Repr

/-- The `reset` message handler (recorder-processor.js lines 13-20). -/
def recorderReset : RecorderProcessor :=
  { buffers := [], sampleCounter := 0, armed := false, startSample := 0, endSample := 0 }

/-- The `arm` message handler (recorder-processor.js lines 21-30). -/
def armRecorder (startSample lengthSamples : ℕ) (st : RecorderProcessor) : RecorderProcessor :=
  { st with startSample := startSample, endSample := startSample + lengthSamples,
            armed := true, buffers := [] }

/-- The dump packing (recorder-processor.js lines 33-48 and 84-99): with no
blocks the posted message has `channels: []`; otherwise channel `ch` of the
message is `block[ch]` concatenated over the collected blocks in order
(`numCh` read from the first block). -/
def packDump (buffers : List (List (List ℚ))) : List (List ℚ) :=
  match buffers with
  | [] => []
  | b0 :: _ =>
    (List.range b0.length).map (fun ch => (buffers.map (fun blk => blk.getD ch [])).flatten)

/-- Model of `process(inputs)` (recorder-processor.js lines 56-106) for one render
block: while armed, capture the overlap of the block's absolute index range
with `[startSample, endSample)`; advance the counter by the block length;
once the counter has reached `endSample`, post exactly one dump message and
disarm.  The option is the posted dump, if any. -/
def processBlock (input : List (List ℚ)) (st : RecorderProcessor) :
    RecorderProcessor × Option (List (List ℚ)) :=
  let blockLen :=
    match input with
    | [] => 128
    | c :: _ => c.length
  let blockStart := st.sampleCounter
  let blockEnd := blockStart + blockLen
  let st1 :=
    if input.length ≠ 0 ∧ st.armed = true then
      let s := max blockStart st.startSample
      let e := min blockEnd st.endSample
      if s < e then
        let copyStart := s - blockStart
        let copyLen := e - s
        let blockCopy := input.map (fun ch => (ch.drop copyStart).take copyLen)
        { st with buffers := st.buffers ++ [blockCopy] }
      else st
    else st
  let st2 : RecorderProcessor := { st1 with sampleCounter := st1.sampleCounter + blockLen }
  if st2.armed = true ∧ st2.endSample ≤ st2.sampleCounter then
    ({ st2 with buffers := [], armed := false }, some (packDump st2.buffers))
  else (st2, none)

/-- Sequential processing of a list of render blocks, collecting the posted
dump messages in order (the audio thread calls `process` once per block). -/
def runProcessor (blocks : List (List (List ℚ))) (st : RecorderProcessor) :
    RecorderProcessor × List (List (List ℚ)) :=
  match blocks with
  | [] => (st, [])
  | b :: rest =>
    let r := processBlock b st
    let rr := runProcessor rest r.1
    (rr.1, r.2.toList ++ rr.2)

/-- Frames in one block (all channels of a block share this length). -/
def blockFrames (b : List (List ℚ)) : ℕ := (b.headD []).length

/-- A well-formed input block: exactly `c` channels, all of the block's
frame count. -/
def blockWf (c : ℕ) (b : List (List ℚ)) : Prop :=
  b.length = c ∧ ∀ chan ∈ b, chan.length = blockFrames b

instance (c : ℕ) (b : List (List ℚ)) : Decidable (blockWf c b) := by
  unfold blockWf; infer_instance

/-- Total frames across a sequence of blocks. -/
def totalFrames (blocks : List (List (List ℚ))) : ℕ :=
  (blocks.map blockFrames).sum

/-- Channel `ch` of the whole input stream: the per-block channel data
concatenated in arrival order. -/
def inputStream (blocks : List (List (List ℚ))) (ch : ℕ) : List ℚ :=
  (blocks.map (fun b => b.getD ch [])).flatten

/-- Channel `ch` of the collected capture blocks, concatenated. -/
def bufJoin (buffers : List (List (List ℚ))) (ch : ℕ) : List ℚ :=
  (buffers.map (fun blk => blk.getD ch [])).flatten

theorem processBlock_disarmed (B : List (List ℚ)) (st : RecorderProcessor)
    (h : st.armed = false) :
    (processBlock B st).1.armed = false ∧
    (processBlock B st).1.buffers = st.buffers ∧
    (processBlock B st).2 = none := by
  simp only [processBlock, h]
  simp [h]

theorem runProcessor_disarmed (blocks : List (List (List ℚ))) :
    ∀ (st : RecorderProcessor), st.armed = false →
      (runProcessor blocks st).1.armed = false ∧
      (runProcessor blocks st).1.buffers = st.buffers ∧
      (runProcessor blocks st).2 = [] := by
  induction blocks with
  | nil => intro st h; exact ⟨h, rfl, rfl⟩
  | cons b rest ih =>
    intro st h
    obtain ⟨h1, h2, h3⟩ := processBlock_disarmed b st h
    obtain ⟨h4, h5, h6⟩ := ih (processBlock b st).1 h1
    refine ⟨h4, by rw [runProcessor]; rw [h5, h2], ?_⟩
    rw [runProcessor]
    simp [h3, h6]

theorem seg_skip (A S : List ℚ) (a m : ℕ) (h : A.length ≤ a) :
    ((A ++ S).drop a).take m = (S.drop (a - A.length)).take m := by
  rw [List.drop_append_eq_append_drop, List.drop_eq_nil_of_le h, List.nil_append]

theorem seg_cross (A S : List ℚ) (a m : ℕ) (h1 : a ≤ A.length) (h2 : A.length - a ≤ m) :
    ((A ++ S).drop a).take m = A.drop a ++ S.take (m - (A.length - a)) := by
  rw [List.drop_append_eq_append_drop, Nat.sub_eq_zero_of_le h1, List.drop_zero,
    List.take_append_eq_append_take, List.length_drop]
  congr 1
  exact List.take_of_length_le (by rw [List.length_drop]; exact h2)

theorem seg_within (A S : List ℚ) (a m : ℕ) (h : a + m ≤ A.length) :
    ((A ++ S).drop a).take m = (A.drop a).take m := by
  rw [List.drop_append_eq_append_drop, Nat.sub_eq_zero_of_le (by omega), List.drop_zero,
    List.take_append_eq_append_take, List.length_drop,
    show m - (A.length - a) = 0 by omega, List.take_zero, List.append_nil]

theorem inputStream_cons (B : List (List ℚ)) (rest : List (List (List ℚ))) (ch : ℕ) :
    inputStream (B :: rest) ch = B.getD ch [] ++ inputStream rest ch := by
  simp [inputStream]

theorem bufJoin_append_single (bufs : List (List (List ℚ))) (blk : List (List ℚ)) (ch : ℕ) :
    bufJoin (bufs ++ [blk]) ch = bufJoin bufs ch ++ blk.getD ch [] := by
  simp [bufJoin]

theorem getD_map_lt {α β : Type} (f : α → β) (l : List α) (d : β) (d' : α) {i : ℕ}
    (h : i < l.length) :
    (l.map f).getD i d = f (l.getD i d') := by
  rw [List.getD_eq_getElem _ _ (by simpa using h), List.getElem_map,
    List.getD_eq_getElem _ _ h]

theorem packDump_length_of_head (bufs : List (List (List ℚ))) (c : ℕ)
    (hne : bufs ≠ []) (hhead : (bufs.headD []).length = c) :
    (packDump bufs).length = c := by
  cases bufs with
  | nil => exact absurd rfl hne
  | cons b0 bs =>
    rw [packDump]
    simpa using hhead

theorem packDump_getD_of_head (bufs : List (List (List ℚ))) (c : ℕ)
    (hne : bufs ≠ []) (hhead : (bufs.headD []).length = c) {ch : ℕ} (hch : ch < c) :
    (packDump bufs).getD ch [] = bufJoin bufs ch := by
  cases bufs with
  | nil => exact absurd rfl hne
  | cons b0 bs =>
    rw [packDump]
    exact rangeMap_getD _ _ (by simp at hhead; omega)

theorem processBlock_armed (c0 : List ℚ) (cb : List (List ℚ))
    (bufs : List (List (List ℚ))) (n s e : ℕ) :
    processBlock (c0 :: cb) ⟨bufs, n, true, s, e⟩ =
      if e ≤ n + c0.length then
        (⟨[], n + c0.length, false, s, e⟩,
         some (packDump (if max n s < min (n + c0.length) e then
             bufs ++ [(c0 :: cb).map (fun ch =>
               (ch.drop (max n s - n)).take (min (n + c0.length) e - max n s))]
           else bufs)))
      else
        (⟨(if max n s < min (n + c0.length) e then
             bufs ++ [(c0 :: cb).map (fun ch =>
               (ch.drop (max n s - n)).take (min (n + c0.length) e - max n s))]
           else bufs), n + c0.length, true, s, e⟩, none) := by
  by_cases hcap : max n s < min (n + c0.length) e <;>
  by_cases hdump : e ≤ n + c0.length
  · have hc2 : max n s < e := by omega
    simp [processBlock, hcap, hdump, hc2]
  · have hc2 : max n s < n + c0.length := by omega
    simp [processBlock, hcap, hdump, hc2]
  · have hc2 : ¬ (max n s < e) := by omega
    simp [processBlock, hcap, hdump, hc2]
  · have hc2 : ¬ (max n s < n + c0.length) := by omega
    simp [processBlock, hcap, hdump, hc2]

theorem cross_combine (A S : List ℚ) (n s e l : ℕ) (hA : A.length = l)
    (hcap : max n s < n + l) (hdump : n + l < e) :
    (A.drop (max n s - n)).take (min (n + l) e - max n s) ++
      (S.drop (max (n + l) s - (n + l))).take (e - max (n + l) s)
    = ((A ++ S).drop (max n s - n)).take (e - max n s) := by
  have hmin : min (n + l) e = n + l := by omega
  have hmax2 : max (n + l) s = n + l := by omega
  rw [hmin, hmax2, Nat.sub_self, List.drop_zero]
  rw [seg_cross _ _ _ _ (by omega) (by rw [hA]; omega)]
  rw [List.take_of_length_le (by rw [List.length_drop, hA]; omega)]
  have htake : (e - (n + l)) = (e - max n s) - (A.length - (max n s - n)) := by
    rw [hA]; omega
  rw [htake]

theorem skip_combine (A S : List ℚ) (n s e l : ℕ) (hA : A.length = l)
    (hskip : n + l ≤ max n s) :
    (S.drop (max (n + l) s - (n + l))).take (e - max (n + l) s)
      = ((A ++ S).drop (max n s - n)).take (e - max n s) := by
  have hmax2 : max (n + l) s = max n s := by omega
  rw [hmax2, seg_skip _ _ _ _ (by rw [hA]; omega), hA]
  congr 2
  omega

theorem runProcessor_armed_capture (blocks : List (List (List ℚ))) :
    ∀ (c : ℕ) (bufs : List (List (List ℚ))) (n s e : ℕ),
      0 < c →
      (∀ b ∈ blocks, blockWf c b) →
      (∀ blk ∈ bufs, blk.length = c) →
      s < e → n < e → e ≤ n + totalFrames blocks →
      (runProcessor blocks ⟨bufs, n, true, s, e⟩).1.armed = false ∧
      (runProcessor blocks ⟨bufs, n, true, s, e⟩).1.buffers = [] ∧
      ∃ d, (runProcessor blocks ⟨bufs, n, true, s, e⟩).2 = [d] ∧
        d.length = c ∧
        ∀ ch < c, d.getD ch [] =
          bufJoin bufs ch ++
            ((inputStream blocks ch).drop (max n s - n)).take (e - max n s) := by
  induction blocks with
  | nil =>
    intro c bufs n s e _ _ _ _ hne htot
    rw [totalFrames] at htot
    simp at htot
    omega
  | cons B rest ih =>
    intro c bufs n s e hc hwf hbufs hse hne htot
    obtain ⟨hBlen, hBchan⟩ := hwf B (List.mem_cons_self _ _)
    cases B with
    | nil => rw [List.length_nil] at hBlen; omega
    | cons c0 cb =>
      have hchan : ∀ chan ∈ (c0 :: cb), chan.length = c0.length := by
        simpa [blockFrames] using hBchan
      have htotcons : totalFrames ((c0 :: cb) :: rest) = c0.length + totalFrames rest := by
        simp [totalFrames, blockFrames]
      have hA : ∀ ch < c, ((c0 :: cb).getD ch []).length = c0.length := by
        intro ch hch
        exact hchan _ (by
          rw [List.getD_eq_getElem _ _ (by omega : ch < (c0 :: cb).length)]
          exact List.getElem_mem _)
      have hrun : runProcessor ((c0 :: cb) :: rest) ⟨bufs, n, true, s, e⟩ =
          ((runProcessor rest (processBlock (c0 :: cb) ⟨bufs, n, true, s, e⟩).1).1,
           (processBlock (c0 :: cb) ⟨bufs, n, true, s, e⟩).2.toList ++
             (runProcessor rest (processBlock (c0 :: cb) ⟨bufs, n, true, s, e⟩).1).2) := rfl
      by_cases hdump : e ≤ n + c0.length
      · -- the dump fires on this block
        have hcap : max n s < min (n + c0.length) e := by omega
        have hPB : processBlock (c0 :: cb) ⟨bufs, n, true, s, e⟩ =
            (⟨[], n + c0.length, false, s, e⟩,
             some (packDump (bufs ++ [(c0 :: cb).map (fun ch =>
               (ch.drop (max n s - n)).take (min (n + c0.length) e - max n s))]))) := by
          rw [processBlock_armed, if_pos hdump, if_pos hcap]
        obtain ⟨hda, hdb, hdd⟩ := runProcessor_disarmed rest
          (⟨[], n + c0.length, false, s, e⟩ : RecorderProcessor) rfl
        have hheadlen : (((bufs ++ [(c0 :: cb).map (fun ch =>
            (ch.drop (max n s - n)).take (min (n + c0.length) e - max n s))]).headD
              []).length) = c := by
          cases bufs with
          | nil => simpa using hBlen
          | cons b0 bs => simpa using hbufs b0 (List.mem_cons_self _ _)
        rw [hrun, hPB]
        simp only [hda, hdb, hdd, Option.toList_some, List.append_nil]
        refine ⟨trivial, trivial, _, rfl, ?_, ?_⟩
        · exact packDump_length_of_head _ c (by simp) hheadlen
        · -- dump contents
          intro ch hch
          rw [packDump_getD_of_head _ c (by simp) hheadlen hch]
          rw [bufJoin_append_single]
          congr 1
          rw [getD_map_lt _ _ _ [] (by omega : ch < (c0 :: cb).length)]
          rw [inputStream_cons]
          rw [min_eq_right hdump]
          rw [seg_within _ _ _ _ (by rw [hA ch hch]; omega)]
      · -- no dump on this block: recurse
        push_neg at hdump
        rw [hrun]
        by_cases hcap : max n s < min (n + c0.length) e
        · have hPB : processBlock (c0 :: cb) ⟨bufs, n, true, s, e⟩ =
              (⟨bufs ++ [(c0 :: cb).map (fun ch =>
                 (ch.drop (max n s - n)).take (min (n + c0.length) e - max n s))],
                n + c0.length, true, s, e⟩, none) := by
            rw [processBlock_armed, if_neg (by omega), if_pos hcap]
          rw [hPB]
          simp only [Option.toList_none, List.nil_append]
          have hbufs' : ∀ blk ∈ bufs ++ [(c0 :: cb).map (fun ch =>
              (ch.drop (max n s - n)).take (min (n + c0.length) e - max n s))],
              blk.length = c := by
            intro blk hblk
            rcases List.mem_append.1 hblk with h | h
            · exact hbufs blk h
            · rcases List.mem_singleton.1 h with rfl
              simpa using hBlen
          obtain ⟨iha, ihb, d, ihd, ihlen, ihcontent⟩ :=
            ih c _ (n + c0.length) s e hc (fun b hb => hwf b (List.mem_cons_of_mem _ hb))
              hbufs' hse (by omega) (by omega)
          refine ⟨iha, ihb, d, ihd, ihlen, ?_⟩
          intro ch hch
          rw [ihcontent ch hch, bufJoin_append_single]
          rw [getD_map_lt _ _ _ [] (by omega : ch < (c0 :: cb).length)]
          rw [inputStream_cons, List.append_assoc]
          congr 1
          exact cross_combine _ _ n s e c0.length (hA ch hch) (by omega) (by omega)
        · have hPB : processBlock (c0 :: cb) ⟨bufs, n, true, s, e⟩ =
              (⟨bufs, n + c0.length, true, s, e⟩, none) := by
            rw [processBlock_armed, if_neg (by omega), if_neg hcap]
          rw [hPB]
          simp only [Option.toList_none, List.nil_append]
          obtain ⟨iha, ihb, d, ihd, ihlen, ihcontent⟩ :=
            ih c bufs (n + c0.length) s e hc (fun b hb => hwf b (List.mem_cons_of_mem _ hb))
              hbufs hse (by omega) (by omega)
          refine ⟨iha, ihb, d, ihd, ihlen, ?_⟩
          intro ch hch
          rw [ihcontent ch hch, inputStream_cons]
          congr 1
          exact skip_combine _ _ n s e c0.length (hA ch hch) (by omega)

theorem inputStream_length (blocks : List (List (List ℚ))) (c : ℕ)
    (hwf : ∀ b ∈ blocks, blockWf c b) {ch : ℕ} (hch : ch < c) :
    (inputStream blocks ch).length = totalFrames blocks := by
  induction blocks with
  | nil => simp [inputStream, totalFrames]
  | cons B rest ihh =>
    obtain ⟨hBlen, hBchan⟩ := hwf B (List.mem_cons_self _ _)
    have hmem : B.getD ch [] ∈ B := by
      rw [List.getD_eq_getElem _ _ (by omega : ch < B.length)]
      exact List.getElem_mem _
    have htotcons : totalFrames (B :: rest) = blockFrames B + totalFrames rest := by
      simp [totalFrames]
    rw [inputStream_cons, List.length_append,
      ihh (fun b hb => hwf b (List.mem_cons_of_mem _ hb)), hBchan _ hmem, htotcons]

/-- C10: an armed `RecorderProcessor` (start `s`, length `L > 0`, counter
fresh from `reset`) run over any block sequence with a consistent channel
count that covers the window captures, per channel, exactly the input
samples with absolute indices in `[s, s + L)`, in arrival order; it posts
exactly one dump message, whose channel arrays all have the equal length
`L` (the total captured frame count); and it disarms itself, retaining no
buffered samples from the blocks after the dump. -/
theorem recorder_worklet_capture (blocks : List (List (List ℚ))) (c s L : ℕ)
    (hc : 0 < c) (hL : 0 < L)
    (hwf : ∀ b ∈ blocks, blockWf c b)
    (htot : s + L ≤ totalFrames blocks) :
    (runProcessor blocks (armRecorder s L recorderReset)).2.length = 1 ∧
    (∀ d ∈ (runProcessor blocks (armRecorder s L recorderReset)).2,
      d.length = c ∧
      ∀ ch < c,
        d.getD ch [] = ((inputStream blocks ch).drop s).take L ∧
        (d.getD ch []).length = L) ∧
    (runProcessor blocks (armRecorder s L recorderReset)).1.armed = false ∧
    (runProcessor blocks (armRecorder s L recorderReset)).1.buffers = [] := by
  have harm : armRecorder s L recorderReset =
      (⟨[], 0, true, s, s + L⟩ : RecorderProcessor) := rfl
  obtain ⟨ha, hb, d, hd, hdlen, hdcontent⟩ :=
    runProcessor_armed_capture blocks c [] 0 s (s + L) hc hwf (by simp)
      (by omega) (by omega) (by omega)
  rw [harm]
  refine ⟨by rw [hd]; rfl, ?_, ha, hb⟩
  intro d0 hd0
  rw [hd, List.mem_singleton] at hd0
  subst hd0
  refine ⟨hdlen, ?_⟩
  intro ch hch
  have hcontent := hdcontent ch hch
  rw [show max 0 s = s by omega, Nat.sub_zero, Nat.add_sub_cancel_left] at hcontent
  have hcontent2 : d0.getD ch [] = ((inputStream blocks ch).drop s).take L := by
    rw [hcontent]
    simp [bufJoin]
  refine ⟨hcontent2, ?_⟩
  rw [hcontent2, List.length_take, List.length_drop,
    inputStream_length blocks c hwf hch]
  omega

/-- Witness for `recorder_worklet_capture`: three 2-frame mono blocks,
armed window `[1, 4)`. -/
theorem recorder_worklet_capture_witness :
    0 < 1 ∧ 0 < 3 ∧ (∀ b ∈ [[[(1:ℚ), 2]], [[(3:ℚ), 4]], [[(5:ℚ), 6]]], blockWf 1 b) ∧
    1 + 3 ≤ totalFrames [[[(1:ℚ), 2]], [[(3:ℚ), 4]], [[(5:ℚ), 6]]] ∧
    ((runProcessor [[[(1:ℚ), 2]], [[(3:ℚ), 4]], [[(5:ℚ), 6]]]
        (armRecorder 1 3 recorderReset)).2.length = 1 ∧
     (∀ d ∈ (runProcessor [[[(1:ℚ), 2]], [[(3:ℚ), 4]], [[(5:ℚ), 6]]]
        (armRecorder 1 3 recorderReset)).2,
       d.length = 1 ∧
       ∀ ch < 1,
         d.getD ch [] = ((inputStream [[[(1:ℚ), 2]], [[(3:ℚ), 4]], [[(5:ℚ), 6]]] ch).drop 1).take 3 ∧
         (d.getD ch []).length = 3) ∧
     (runProcessor [[[(1:ℚ), 2]], [[(3:ℚ), 4]], [[(5:ℚ), 6]]]
        (armRecorder 1 3 recorderReset)).1.armed = false ∧
     (runProcessor [[[(1:ℚ), 2]], [[(3:ℚ), 4]], [[(5:ℚ), 6]]]
        (armRecorder 1 3 recorderReset)).1.buffers = []) :=
  ⟨Nat.one_pos, by omega, by decide, by decide,
   recorder_worklet_capture [[[(1:ℚ), 2]], [[(3:ℚ), 4]], [[(5:ℚ), 6]]] 1 1 3
     Nat.one_pos (by omega) (by decide) (by decide)⟩
